import Mathlib

/-!
# Verification of the bedrock-rs protocol core

A shallow embedding of the bedrock-rs repository's protocol code:

* the integer codecs (`VAR`, `LE` from `bedrockrs_core::int`, modelled from the
  spec since their source is not in the sampled tree),
* the `AnimatePacket` codec (`crates/proto/src/packets/animate.rs`),
* the `Difficulty` codec (`proto_core/src/types/difficulty.rs`),
* the transport-layer connection (`proto/src/transport_layer/conn.rs`),
* the login handshake deserializer
  (`crates/proto/src/types/connection_request.rs`), together with executable
  models of the external crates it calls (`serde_json`, `base64`,
  `jsonwebtoken` with signature validation disabled, as at the call sites).

Byte streams are `List Nat` (each element a byte value `< 256`); a stateful
Rust `Cursor` read is a function from the remaining bytes to
`Except e (value × remaining bytes)`.
-/

namespace BedrockRs

/-- Modelled from the spec (§7 error taxonomy) and the variants used by the
source files: `ProtoCodecError` from `bedrockrs_proto_core::error`, whose
definition is not in the sampled tree.  Payloads (messages, wrapped errors)
are dropped: the claims only distinguish variants. -/
inductive ProtoCodecError where
  /-- stream ended mid-value (spec: `TruncatedInput`) -/
  | TruncatedInput
  /-- variable-width integer exceeds its declared bit width -/
  | Overflow
  /-- `try_into` failure on a negative length (source: `FromIntError`) -/
  | FromIntError
  /-- I/O error, e.g. `read_exact` on a too-short stream -/
  | IOError
  /-- invalid UTF-8 (source: `UTF8Error`) -/
  | UTF8Error
  /-- `serde_json` parse error (source: `JsonError`) -/
  | JsonError
  /-- structural/schema violation (source: `FormatMismatch(String)`) -/
  | FormatMismatch
  /-- `base64` decode failure (source: `Base64DecodeError`) -/
  | Base64DecodeError
  /-- `jsonwebtoken` error (source: `JwtError`) -/
  | JwtError
  /-- unknown enum tag (source: `InvalidEnumID(String, String)`) -/
  | InvalidEnumID
  /-- spec taxonomy: missing or invalid trust-anchor linkage.  No code path in
  the sampled sources produces it. -/
  | CredentialChainBroken
  /-- spec taxonomy: unknown packet identifier -/
  | UnknownPacketID
deriving DecidableEq, Repr

/-! ## Integer codecs (`bedrockrs_core::int`)

Modelled from the spec (§4.1): the `VAR`/`LE` implementation is code of this
repository that is not under the sampled `src/` tree.  Spec: variable-width
integers are encoded 7 bits per byte, continuation bit set on all but the
final byte, least-significant group first; signed variants are zigzag-mapped;
decode fails with a truncation error when the stream ends before a
terminating byte and with an overflow error when more continuation bytes
appear than the maximum group count (5 for 32-bit, 10 for 64-bit).
Fixed-width little-endian values are written verbatim, least byte first. -/

/-- Modelled from the spec: unsigned varint encoding, least-significant
7-bit group first, continuation bit (`+128`) on all but the final byte.
The first argument is fuel (`n` itself suffices, as the value shrinks by a
factor of 128 each step); it exists only to make the recursion structural. -/
def varEncodeAux : Nat → Nat → List Nat
  | 0, n => [n % 128]
  | fuel + 1, n => if n < 128 then [n] else (n % 128 + 128) :: varEncodeAux fuel (n / 128)

/-- Modelled from the spec: unsigned varint encoding of `n`. -/
def varEncodeNat (n : Nat) : List Nat :=
  varEncodeAux n n

/-- Modelled from the spec: unsigned varint decoding with at most
`groups` 7-bit groups remaining; returns the value and the unread rest. -/
def varDecodeAux : Nat → List Nat → Except ProtoCodecError (Nat × List Nat)
  | _, [] => .error .TruncatedInput
  | 0, _ :: _ => .error .Overflow
  | groups + 1, b :: rest =>
    if b < 128 then .ok (b, rest)
    else
      match varDecodeAux groups rest with
      | .ok (n, r) => .ok ((b - 128) + 128 * n, r)
      | .error e => .error e

/-- `VAR::<u32>::proto_deserialize`: at most 5 groups. -/
def varDecodeU32 (s : List Nat) : Except ProtoCodecError (Nat × List Nat) :=
  varDecodeAux 5 s

/-- `VAR::<u64>::proto_deserialize`: at most 10 groups. -/
def varDecodeU64 (s : List Nat) : Except ProtoCodecError (Nat × List Nat) :=
  varDecodeAux 10 s

/-- Modelled from the spec: zigzag mapping
`zigzag(n) = (n << 1) ^ (n >> (width-1))`, i.e. `n ≥ 0 ↦ 2n`,
`n < 0 ↦ -2n - 1`. -/
def zigzag (n : Int) : Nat :=
  if 0 ≤ n then (2 * n).toNat else (-2 * n - 1).toNat

/-- Modelled from the spec: inverse of the zigzag mapping. -/
def unzigzag (u : Nat) : Int :=
  if u % 2 = 0 then (u / 2 : Nat) else -(((u : Int) + 1) / 2)

/-- `VAR::<i32>::proto_serialize`: zigzag then unsigned varint. -/
def varEncodeI32 (n : Int) : List Nat :=
  varEncodeNat (zigzag n)

/-- `VAR::<i32>::proto_deserialize`: unsigned varint (≤ 5 groups) then
un-zigzag. -/
def varDecodeI32 (s : List Nat) : Except ProtoCodecError (Int × List Nat) :=
  match varDecodeU32 s with
  | .ok (u, rest) => .ok (unzigzag u, rest)
  | .error e => .error e

/-- `VAR::<u64>::proto_serialize` of an unsigned 64-bit value. -/
def varEncodeU64 (n : Nat) : List Nat :=
  varEncodeNat n

/-- Modelled from the spec: 4-byte little-endian encoding of an unsigned
32-bit bit pattern. -/
def le4Encode (m : Nat) : List Nat :=
  [m % 256, m / 256 % 256, m / 65536 % 256, m / 16777216 % 256]

/-- Modelled from the spec: read 4 bytes little-endian as an unsigned 32-bit
bit pattern; `IOError` when fewer than 4 bytes remain (the source maps the
cursor's end-of-file onto its I/O error variant). -/
def le4Decode : List Nat → Except ProtoCodecError (Nat × List Nat)
  | b0 :: b1 :: b2 :: b3 :: rest => .ok (b0 + 256 * b1 + 65536 * b2 + 16777216 * b3, rest)
  | _ => .error .IOError

/-- `LE::<i32>` signed view of a 32-bit little-endian read. -/
def leI32Decode (s : List Nat) : Except ProtoCodecError (Int × List Nat) :=
  match le4Decode s with
  | .ok (m, rest) => .ok (if m < 2147483648 then (m : Int) else (m : Int) - 4294967296, rest)
  | .error e => .error e

/-- `LE::<i32>::proto_serialize` of a signed 32-bit value (two's
complement bit pattern, little-endian). -/
def leI32Encode (n : Int) : List Nat :=
  le4Encode ((n % 4294967296).toNat)

/-- `LE::<f32>`: a 4-byte little-endian value.  The `f32` payload is
modelled by its 32-bit bit pattern (a `Nat < 2^32`); the codec moves the four
bytes verbatim, so the bit pattern is the faithful observable. -/
def leF32Encode (bits : Nat) : List Nat :=
  le4Encode bits

/-- `LE::<f32>::proto_deserialize` as the 32-bit bit pattern. -/
def leF32Decode (s : List Nat) : Except ProtoCodecError (Nat × List Nat) :=
  le4Decode s

/-! ## `AnimatePacket` (`crates/proto/src/packets/animate.rs`) -/

/-- `AnimateAction` (from `crates/proto/src/types/animate_action.rs`, used by
`animate.rs`; the `Swing` variant carries `rowing_time: f32`, modelled by its
bit pattern). -/
inductive AnimateAction where
  | NoAction
  | Swing (rowing_time : Nat)
  | WakeUp
  | CriticalHit
  | MagicCriticalHit
  | RowRight
  | RowLeft
deriving DecidableEq, Repr

/-- `ActorRuntimeID` (from `bedrockrs_shared`, not in the sampled tree).
Modelled from the spec: a packet field type implementing the Typed Packet
Codec contract as a variable-width unsigned 64-bit integer. -/
structure ActorRuntimeID where
  id : Nat
deriving DecidableEq, Repr

/-- `ActorRuntimeID::proto_serialize` (`VAR<u64>`). -/
def ActorRuntimeID.proto_serialize (a : ActorRuntimeID) : List Nat :=
  varEncodeU64 a.id

/-- `ActorRuntimeID::proto_deserialize` (`VAR<u64>`). -/
def ActorRuntimeID.proto_deserialize (s : List Nat) :
    Except ProtoCodecError (ActorRuntimeID × List Nat) :=
  match varDecodeU64 s with
  | .ok (n, rest) => .ok (⟨n⟩, rest)
  | .error e => .error e

/-- `AnimatePacket` (source lines 8–12). -/
structure AnimatePacket where
  action : AnimateAction
  target_runtime_id : ActorRuntimeID
deriving DecidableEq, Repr

/-- `AnimatePacket::proto_serialize` (source lines 15–34): zigzag-varint tag,
then the runtime id, then — for `Swing` only — the `f32` rowing time,
little-endian. -/
def AnimatePacket.proto_serialize (p : AnimatePacket) : List Nat :=
  let action : Int :=
    match p.action with
    | .NoAction => 0
    | .Swing _ => 1
    | .WakeUp => 3
    | .CriticalHit => 4
    | .MagicCriticalHit => 5
    | .RowRight => 128
    | .RowLeft => 129
  varEncodeI32 action ++ p.target_runtime_id.proto_serialize ++
    (match p.action with
     | .Swing rowing_time => leF32Encode rowing_time
     | _ => [])

/-- `AnimatePacket::proto_deserialize` (source lines 36–67): read the tag,
then the runtime id, then match the tag — tag `1` additionally reads the
rowing time; an unknown tag is `InvalidEnumID`.  (The source's trailing
`println!` is a debug side effect with no bearing on the produced value.) -/
def AnimatePacket.proto_deserialize (s : List Nat) :
    Except ProtoCodecError (AnimatePacket × List Nat) :=
  match varDecodeI32 s with
  | .error e => .error e
  | .ok (action, s1) =>
    match ActorRuntimeID.proto_deserialize s1 with
    | .error e => .error e
    | .ok (target_runtime_id, s2) =>
      if action = 0 then .ok (⟨.NoAction, target_runtime_id⟩, s2)
      else if action = 1 then
        match leF32Decode s2 with
        | .error e => .error e
        | .ok (rowing_time, s3) => .ok (⟨.Swing rowing_time, target_runtime_id⟩, s3)
      else if action = 3 then .ok (⟨.WakeUp, target_runtime_id⟩, s2)
      else if action = 4 then .ok (⟨.CriticalHit, target_runtime_id⟩, s2)
      else if action = 5 then .ok (⟨.MagicCriticalHit, target_runtime_id⟩, s2)
      else if action = 128 then .ok (⟨.RowRight, target_runtime_id⟩, s2)
      else if action = 129 then .ok (⟨.RowLeft, target_runtime_id⟩, s2)
      else .error .InvalidEnumID

/-! ## `Difficulty` (`proto_core/src/types/difficulty.rs`) -/

/-- Outcome of a Rust call that may return, error, or panic.  `todo!()` and
other panicking placeholders are `panicked`. -/
inductive RustOutcome (ε α : Type) where
  | ok (a : α)
  | err (e : ε)
  | panicked
deriving DecidableEq, Repr

/-- `Difficulty` (from `bedrockrs_core`; the four variants are fixed by the
serializer in `difficulty.rs` lines 12–17). -/
inductive Difficulty where
  | Peaceful
  | Easy
  | Normal
  | Hard
deriving DecidableEq, Repr

/-- `Difficulty::proto_serialize` (source lines 11–23): explicit integer tag
written as `VAR<i32>`. -/
def Difficulty.proto_serialize (d : Difficulty) : List Nat :=
  varEncodeI32
    (match d with
     | .Peaceful => 0
     | .Easy => 1
     | .Normal => 2
     | .Hard => 3)

/-- `Difficulty::proto_deserialize` (source lines 25–27): the body is
`todo!()`, which panics unconditionally on every input. -/
def Difficulty.proto_deserialize (_s : List Nat) :
    RustOutcome ProtoCodecError (Difficulty × List Nat) :=
  .panicked

/-! ## Transport layer (`proto/src/transport_layer/conn.rs`) -/

/-- `RaknetError` (from `proto/src/error.rs`, payloads dropped). -/
inductive RaknetError where
  | FormatError
  | SendError
  | RecvError
deriving DecidableEq, Repr

/-- `TransportLayerError` (from `proto/src/error.rs`, payloads dropped).
`NotImplemented` is modelled from the spec's error taxonomy (§7); no sampled
code path produces it. -/
inductive TransportLayerError where
  | IOError
  | RaknetUDPError (e : RaknetError)
  | NotImplemented
deriving DecidableEq, Repr

/-- Modelled from the spec: the RakNet game-packet identifier byte
(`RAKNET_GAME_PACKET_ID` from `proto/src/info.rs`, not in the sampled tree).
The spec fixes only that it is a single byte constant per protocol version;
`0xFE` is the RakNet game-packet tag. -/
def RAKNET_GAME_PACKET_ID : Nat := 254

/-- `TransportLayerConn` (source lines 11–18).  The inner `rak_rs`
connection handle carries no codec-relevant state and is dropped. -/
inductive TransportLayerConn where
  | RaknetUDP
  | NetherNet
deriving DecidableEq, Repr

/-- `TransportLayerConn::send` (source lines 21–50).  For `RaknetUDP` the
`ok` payload is the byte buffer handed to the underlying `rak_rs`
channel: the identifier byte followed by the caller's stream.  Every other
variant is `todo!()`, i.e. a panic. -/
def TransportLayerConn.send (c : TransportLayerConn) (payload : List Nat) :
    RustOutcome TransportLayerError (List Nat) :=
  match c with
  | .RaknetUDP => .ok (RAKNET_GAME_PACKET_ID :: payload)
  | .NetherNet => .panicked

/-- `TransportLayerConn::recv` (source lines 52–92).  For `RaknetUDP` the
argument is the datagram yielded by the underlying channel: one leading byte
is read (`IOError` if the datagram is empty), compared against
`RAKNET_GAME_PACKET_ID` (`FormatError` on mismatch), and the remaining bytes
are written through unchanged.  Every other variant is `todo!()`. -/
def TransportLayerConn.recv (c : TransportLayerConn) (datagram : List Nat) :
    RustOutcome TransportLayerError (List Nat) :=
  match c with
  | .RaknetUDP =>
    match datagram with
    | [] => .err .IOError
    | b :: rest =>
      if b = RAKNET_GAME_PACKET_ID then .ok rest
      else .err (.RaknetUDPError .FormatError)
  | .NetherNet => .panicked

end BedrockRs

namespace BedrockRs

/-! ## Strings and UTF-8

The handshake code moves between raw bytes and text
(`String::from_utf8`).  Text is modelled as `List Char` (`JStr`), and the
UTF-8 validation performed by `String::from_utf8` is modelled by an
executable decoder. -/

/-- Text as a list of characters. -/
abbrev JStr := List Char

/-- Characters of a Lean string literal (for writing concrete inputs). -/
def strChars (s : String) : JStr :=
  s.toList

/-- Byte values of an ASCII Lean string literal. -/
def strBytes (s : String) : List Nat :=
  s.toList.map Char.toNat

/-- Model of Rust `String::from_utf8` (fueled; the fuel is the byte count,
which suffices as every code point consumes at least one byte).  Rejects
stray continuation bytes, overlong encodings, surrogates and out-of-range
code points, as Rust does. -/
def utf8DecodeAux : Nat → List Nat → Option (List Char)
  | _, [] => some []
  | 0, _ :: _ => none
  | fuel + 1, b :: rest =>
    if b < 128 then
      (utf8DecodeAux fuel rest).map (fun cs => Char.ofNat b :: cs)
    else if b < 194 then none
    else if b < 224 then
      match rest with
      | b1 :: rest2 =>
        if 128 ≤ b1 ∧ b1 < 192 then
          (utf8DecodeAux fuel rest2).map
            (fun cs => Char.ofNat ((b - 192) * 64 + (b1 - 128)) :: cs)
        else none
      | [] => none
    else if b < 240 then
      match rest with
      | b1 :: b2 :: rest2 =>
        if 128 ≤ b1 ∧ b1 < 192 ∧ 128 ≤ b2 ∧ b2 < 192 then
          let cp := (b - 224) * 4096 + (b1 - 128) * 64 + (b2 - 128)
          if 2048 ≤ cp ∧ ¬(55296 ≤ cp ∧ cp < 57344) then
            (utf8DecodeAux fuel rest2).map (fun cs => Char.ofNat cp :: cs)
          else none
        else none
      | _ => none
    else if b < 245 then
      match rest with
      | b1 :: b2 :: b3 :: rest2 =>
        if 128 ≤ b1 ∧ b1 < 192 ∧ 128 ≤ b2 ∧ b2 < 192 ∧ 128 ≤ b3 ∧ b3 < 192 then
          let cp := (b - 240) * 262144 + (b1 - 128) * 4096 + (b2 - 128) * 64 + (b3 - 128)
          if 65536 ≤ cp ∧ cp < 1114112 then
            (utf8DecodeAux fuel rest2).map (fun cs => Char.ofNat cp :: cs)
          else none
        else none
      | _ => none
    else none

/-- Model of Rust `String::from_utf8` on a byte list. -/
def utf8Decode (bytes : List Nat) : Option (List Char) :=
  utf8DecodeAux bytes.length bytes

/-! ## JSON (`serde_json`)

An executable model of `serde_json::from_str` and `serde_json::Value`.
Objects are association lists built by sequential insertion, so duplicate
keys collapse to the last occurrence exactly as for `serde_json::Map`; only
key lookup is observed by the handshake code, so the map's internal key
ordering is irrelevant.  Numbers keep their literal text: the handshake code
never inspects a numeric payload. -/

/-- Model of `serde_json::Value` (payload of `Number` kept as source text). -/
inductive JsonValue where
  | null
  | bool (b : Bool)
  | num (raw : JStr)
  | str (s : JStr)
  | arr (xs : List JsonValue)
  | obj (fields : List (JStr × JsonValue))

/-- Key lookup in a JSON object (`serde_json::Map::get`). -/
def jlookup : List (JStr × JsonValue) → JStr → Option JsonValue
  | [], _ => none
  | (k', v) :: rest, k => if k' = k then some v else jlookup rest k

/-- Key insertion (`serde_json::Map::insert`): replaces an existing
binding. -/
def jinsert : List (JStr × JsonValue) → JStr → JsonValue → List (JStr × JsonValue)
  | [], k, v => [(k, v)]
  | (k', v') :: rest, k, v =>
    if k' = k then (k', v) :: rest else (k', v') :: jinsert rest k v

/-- JSON insignificant whitespace. -/
def skipWs : JStr → JStr
  | c :: rest =>
    if c = ' ' ∨ c = '\t' ∨ c = '\n' ∨ c = '\r' then skipWs rest else c :: rest
  | [] => []

/-- Hexadecimal digit value. -/
def hexVal (c : Char) : Option Nat :=
  let n := c.toNat
  if 48 ≤ n ∧ n ≤ 57 then some (n - 48)
  else if 97 ≤ n ∧ n ≤ 102 then some (n - 97 + 10)
  else if 65 ≤ n ∧ n ≤ 70 then some (n - 65 + 10)
  else none

/-- Decimal digit test. -/
def isDigit (c : Char) : Bool :=
  48 ≤ c.toNat ∧ c.toNat ≤ 57

/-- JSON string body after the opening quote: returns the decoded characters
and the input remaining after the closing quote.  Escapes are handled as by
`serde_json`, except that `\uXXXX` surrogate escapes are rejected by this
model (no concrete input in this development uses them). -/
def pStringAux : Nat → JStr → Except Unit (JStr × JStr)
  | 0, _ => .error ()
  | _ + 1, [] => .error ()
  | fuel + 1, c :: rest =>
    if c = '"' then .ok ([], rest)
    else if c = '\\' then
      match rest with
      | [] => .error ()
      | e :: rest2 =>
        if e = '"' ∨ e = '\\' ∨ e = '/' then
          (pStringAux fuel rest2).map (fun (s, r) => (e :: s, r))
        else if e = 'n' then (pStringAux fuel rest2).map (fun (s, r) => ('\n' :: s, r))
        else if e = 't' then (pStringAux fuel rest2).map (fun (s, r) => ('\t' :: s, r))
        else if e = 'r' then (pStringAux fuel rest2).map (fun (s, r) => ('\r' :: s, r))
        else if e = 'b' then (pStringAux fuel rest2).map (fun (s, r) => (Char.ofNat 8 :: s, r))
        else if e = 'f' then (pStringAux fuel rest2).map (fun (s, r) => (Char.ofNat 12 :: s, r))
        else if e = 'u' then
          match rest2 with
          | h1 :: h2 :: h3 :: h4 :: rest3 =>
            match hexVal h1, hexVal h2, hexVal h3, hexVal h4 with
            | some a, some b, some c2, some d =>
              let cp := a * 4096 + b * 256 + c2 * 16 + d
              if 55296 ≤ cp ∧ cp < 57344 then .error ()
              else (pStringAux fuel rest3).map (fun (s, r) => (Char.ofNat cp :: s, r))
            | _, _, _, _ => .error ()
          | _ => .error ()
        else .error ()
    else if c.toNat < 32 then .error ()
    else (pStringAux fuel rest).map (fun (s, r) => (c :: s, r))

/-- Consume a run of decimal digits. -/
def digitsMany : JStr → JStr
  | c :: rest => if isDigit c then digitsMany rest else c :: rest
  | [] => []

/-- JSON number: integer part (`0` alone, or a nonzero digit then digits). -/
def pIntPart : JStr → Option JStr
  | c :: rest =>
    if c = '0' then some rest
    else if isDigit c then some (digitsMany rest)
    else none
  | [] => none

/-- JSON number: optional fraction part. -/
def pFracPart : JStr → Option JStr
  | '.' :: rest =>
    match rest with
    | c :: r2 => if isDigit c then some (digitsMany r2) else none
    | [] => none
  | s => some s

/-- JSON number: optional exponent part. -/
def pExpPart : JStr → Option JStr
  | c :: rest =>
    if c = 'e' ∨ c = 'E' then
      match rest with
      | s :: r2 =>
        if s = '+' ∨ s = '-' then
          match r2 with
          | d :: r3 => if isDigit d then some (digitsMany r3) else none
          | [] => none
        else if isDigit s then some (digitsMany r2)
        else none
      | [] => none
    else some (c :: rest)
  | [] => some []

/-- JSON number, starting at its first character; returns the rest. -/
def pNumber (s : JStr) : Option JStr :=
  let s1 := match s with
    | '-' :: r => r
    | _ => s
  match pIntPart s1 with
  | none => none
  | some r2 =>
    match pFracPart r2 with
    | none => none
    | some r3 => pExpPart r3

mutual

/-- JSON value (fueled recursive descent; the fuel is the input length plus
one, which dominates the nesting depth). -/
def pValue : Nat → JStr → Except Unit (JsonValue × JStr)
  | 0, _ => .error ()
  | fuel + 1, s =>
    match skipWs s with
    | [] => .error ()
    | c :: rest =>
      if c = '{' then
        match skipWs rest with
        | '}' :: r2 => .ok (.obj [], r2)
        | r2 => (pMembers fuel r2 []).map (fun (fs, r) => (.obj fs, r))
      else if c = '[' then
        match skipWs rest with
        | ']' :: r2 => .ok (.arr [], r2)
        | r2 => (pElems fuel r2).map (fun (vs, r) => (.arr vs, r))
      else if c = '"' then
        (pStringAux (rest.length + 1) rest).map (fun (str, r) => (.str str, r))
      else if c = 't' then
        match rest with
        | 'r' :: 'u' :: 'e' :: r2 => .ok (.bool true, r2)
        | _ => .error ()
      else if c = 'f' then
        match rest with
        | 'a' :: 'l' :: 's' :: 'e' :: r2 => .ok (.bool false, r2)
        | _ => .error ()
      else if c = 'n' then
        match rest with
        | 'u' :: 'l' :: 'l' :: r2 => .ok (.null, r2)
        | _ => .error ()
      else if c = '-' ∨ isDigit c then
        match pNumber (c :: rest) with
        | some r =>
          .ok (.num ((c :: rest).take ((c :: rest).length - r.length)), r)
        | none => .error ()
      else .error ()

/-- Object members after `{` (when not immediately `}`). -/
def pMembers : Nat → JStr → List (JStr × JsonValue) →
    Except Unit (List (JStr × JsonValue) × JStr)
  | 0, _, _ => .error ()
  | fuel + 1, s, acc =>
    match skipWs s with
    | '"' :: rest =>
      match pStringAux (rest.length + 1) rest with
      | .error _ => .error ()
      | .ok (key, r2) =>
        match skipWs r2 with
        | ':' :: r3 =>
          match pValue fuel r3 with
          | .error _ => .error ()
          | .ok (v, r4) =>
            match skipWs r4 with
            | ',' :: r5 => pMembers fuel r5 (jinsert acc key v)
            | '}' :: r5 => .ok (jinsert acc key v, r5)
            | _ => .error ()
        | _ => .error ()
    | _ => .error ()

/-- Array elements after `[` (when not immediately `]`). -/
def pElems : Nat → JStr → Except Unit (List JsonValue × JStr)
  | 0, _ => .error ()
  | fuel + 1, s =>
    match pValue fuel s with
    | .error _ => .error ()
    | .ok (v, r) =>
      match skipWs r with
      | ',' :: r2 => (pElems fuel r2).map (fun (vs, r3) => (v :: vs, r3))
      | ']' :: r2 => .ok ([v], r2)
      | _ => .error ()

end

/-- Model of `serde_json::from_str`: one complete JSON document, with only
trailing whitespace allowed. -/
def jsonParse (s : JStr) : Except Unit JsonValue :=
  match pValue (s.length + 1) s with
  | .error _ => .error ()
  | .ok (v, rest) => if skipWs rest = [] then .ok v else .error ()

end BedrockRs

namespace BedrockRs

/-! ## Base64 (`base64` crate)

`BASE64_STANDARD.decode` (used on `x5u` and `identityPublicKey` values):
standard alphabet, canonical padding required, non-zero trailing bits
rejected.  `URL_SAFE_NO_PAD` (used by `jsonwebtoken` on token segments):
URL-safe alphabet, no padding, non-zero trailing bits rejected. -/

/-- Standard-alphabet symbol value. -/
def b64StdIdx (c : Char) : Option Nat :=
  let n := c.toNat
  if 65 ≤ n ∧ n ≤ 90 then some (n - 65)
  else if 97 ≤ n ∧ n ≤ 122 then some (n - 97 + 26)
  else if 48 ≤ n ∧ n ≤ 57 then some (n - 48 + 52)
  else if n = 43 then some 62
  else if n = 47 then some 63
  else none

/-- URL-safe-alphabet symbol value. -/
def b64UrlIdx (c : Char) : Option Nat :=
  let n := c.toNat
  if 65 ≤ n ∧ n ≤ 90 then some (n - 65)
  else if 97 ≤ n ∧ n ≤ 122 then some (n - 97 + 26)
  else if 48 ≤ n ∧ n ≤ 57 then some (n - 48 + 52)
  else if n = 45 then some 62
  else if n = 95 then some 63
  else none

/-- `BASE64_STANDARD.decode`: blocks of four symbols, with `=`-padding in
the final block only. -/
def b64StdDecode : JStr → Option (List Nat)
  | [] => some []
  | [a, b, '=', '='] =>
    match b64StdIdx a, b64StdIdx b with
    | some ia, some ib => if ib % 16 = 0 then some [ia * 4 + ib / 16] else none
    | _, _ => none
  | [a, b, c, '='] =>
    match b64StdIdx a, b64StdIdx b, b64StdIdx c with
    | some ia, some ib, some ic =>
      if ic % 4 = 0 then some [ia * 4 + ib / 16, ib % 16 * 16 + ic / 4] else none
    | _, _, _ => none
  | a :: b :: c :: d :: rest =>
    match b64StdIdx a, b64StdIdx b, b64StdIdx c, b64StdIdx d with
    | some ia, some ib, some ic, some idd =>
      (b64StdDecode rest).map
        (fun tail => (ia * 4 + ib / 16) :: (ib % 16 * 16 + ic / 4) :: (ic % 4 * 64 + idd) :: tail)
    | _, _, _, _ => none
  | _ => none

/-- `URL_SAFE_NO_PAD` decode: blocks of four symbols with a final block of
two or three. -/
def b64UrlDecode : JStr → Option (List Nat)
  | [] => some []
  | [_] => none
  | [a, b] =>
    match b64UrlIdx a, b64UrlIdx b with
    | some ia, some ib => if ib % 16 = 0 then some [ia * 4 + ib / 16] else none
    | _, _ => none
  | [a, b, c] =>
    match b64UrlIdx a, b64UrlIdx b, b64UrlIdx c with
    | some ia, some ib, some ic =>
      if ic % 4 = 0 then some [ia * 4 + ib / 16, ib % 16 * 16 + ic / 4] else none
    | _, _, _ => none
  | a :: b :: c :: d :: rest =>
    match b64UrlIdx a, b64UrlIdx b, b64UrlIdx c, b64UrlIdx d with
    | some ia, some ib, some ic, some idd =>
      (b64UrlDecode rest).map
        (fun tail => (ia * 4 + ib / 16) :: (ib % 16 * 16 + ic / 4) :: (ic % 4 * 64 + idd) :: tail)
    | _, _, _, _ => none

/-! ## JWT (`jsonwebtoken` crate)

The handshake constructs its `Validation` with
`insecure_disable_signature_validation()` and
`set_required_spec_claims::<&str>(&[])` at every decode site
(connection_request.rs lines 173–177 and 241–245), so the model of
`jsonwebtoken::decode` performs no signature check and no claim
requirement check: the decoding key passed by the source is unused.
Claims carrying `exp`-style time validation are outside this model; no
universal statement below depends on it and no concrete input here carries
`exp`. -/

/-- Claims map of a decoded token
(`BTreeMap<String, serde_json::Value>`). -/
abbrev Claims := List (JStr × JsonValue)

/-- Recognised `alg` header values (the `jsonwebtoken::Algorithm` enum). -/
def jwtAlgs : List JStr :=
  [ strChars r"HS256", strChars r"HS384", strChars r"HS512",
    strChars r"ES256", strChars r"ES384",
    strChars r"RS256", strChars r"RS384", strChars r"RS512",
    strChars r"PS256", strChars r"PS384", strChars r"PS512",
    strChars r"EdDSA" ]

/-- Decoded JWT header: the `alg` value and the optional `x5u` value
(`jsonwebtoken::Header`; other fields are ignored by the handshake). -/
structure JwtHeader where
  alg : JStr
  x5u : Option JStr

/-- Split a character list at every dot. -/
def splitOnDot : JStr → List JStr
  | [] => [[]]
  | c :: rest =>
    if c = '.' then [] :: splitOnDot rest
    else
      match splitOnDot rest with
      | [] => [[c]]
      | p :: ps => (c :: p) :: ps

/-- The header and claims segments of a compact JWT (three dot-separated
parts; any other shape is a token error, as in `jsonwebtoken`). -/
def jwtParts (tok : JStr) : Except Unit (JStr × JStr) :=
  match splitOnDot tok with
  | [h, c, _] => .ok (h, c)
  | _ => .error ()

/-- Interpret a parsed JSON document as a `jsonwebtoken::Header`: `alg` is
required and must name a known algorithm; `x5u` is an optional string. -/
def jwtHeaderOfJson (v : JsonValue) : Except Unit JwtHeader :=
  match v with
  | .obj fields =>
    match jlookup fields (strChars r"alg") with
    | some (.str a) =>
      if a ∈ jwtAlgs then
        match jlookup fields (strChars r"x5u") with
        | none => .ok ⟨a, none⟩
        | some .null => .ok ⟨a, none⟩
        | some (.str x) => .ok ⟨a, some x⟩
        | some _ => .error ()
      else .error ()
    | _ => .error ()
  | _ => .error ()

/-- Model of `jsonwebtoken::decode_header`. -/
def decode_header (tok : JStr) : Except Unit JwtHeader :=
  match jwtParts tok with
  | .error _ => .error ()
  | .ok (h, _) =>
    match b64UrlDecode h with
    | none => .error ()
    | some bytes =>
      match utf8Decode bytes with
      | none => .error ()
      | some s =>
        match jsonParse s with
        | .error _ => .error ()
        | .ok v => jwtHeaderOfJson v

/-- Model of `jsonwebtoken::decode::<BTreeMap<String, Value>>` under the
handshake's validation settings (signature validation disabled, no required
claims): the header is re-parsed, then the claims segment is decoded and
must be a JSON object.  The `DecodingKey` argument of the source is unused
under these settings and is therefore not a parameter. -/
def decodeClaimsInsecure (tok : JStr) : Except Unit Claims :=
  match jwtParts tok with
  | .error _ => .error ()
  | .ok (_, c) =>
    match decode_header tok with
    | .error _ => .error ()
    | .ok _ =>
      match b64UrlDecode c with
      | none => .error ()
      | some bytes =>
        match utf8Decode bytes with
        | none => .error ()
        | some s =>
          match jsonParse s with
          | .error _ => .error ()
          | .ok (.obj fields) => .ok fields
          | .ok _ => .error ()

end BedrockRs

namespace BedrockRs

/-! ## `ConnectionRequest::proto_deserialize`
(`crates/proto/src/types/connection_request.rs`, lines 93–259) -/

/-- `ConnectionRequest` (source lines 13–81). -/
structure ConnectionRequest where
  certificate_chain : List Claims
  raw_token : Claims

/-- `Cursor::read_exact` into an `n`-byte buffer: `IOError` when fewer than
`n` bytes remain. -/
def readExact (n : Nat) (s : List Nat) : Except ProtoCodecError (List Nat × List Nat) :=
  if n ≤ s.length then .ok (s.take n, s.drop n) else .error .IOError

/-- `try_into::<usize>()` on an `i32` length: `FromIntError` when
negative. -/
def i32toUsize (n : Int) : Except ProtoCodecError Nat :=
  if 0 ≤ n then .ok n.toNat else .error .FromIntError

/-- Source lines 99–121: skip the overall `VAR<u32>` length, read the chain
region length as `LE<i32>`, `read_exact` that many bytes, and UTF-8 decode
them. -/
def readChainRegion (s : List Nat) : Except ProtoCodecError (JStr × List Nat) :=
  match varDecodeU32 s with
  | .error e => .error e
  | .ok (_, s1) =>
    match leI32Decode s1 with
    | .error e => .error e
    | .ok (clenI, s2) =>
      match i32toUsize clenI with
      | .error e => .error e
      | .ok clen =>
        match readExact clen s2 with
        | .error e => .error e
        | .ok (cbytes, s3) =>
          match utf8Decode cbytes with
          | none => .error .UTF8Error
          | some str => .ok (str, s3)

/-- Source lines 217–235: read the raw-token region length as `LE<i32>`,
`read_exact` that many bytes, and UTF-8 decode them. -/
def readRawRegion (s : List Nat) : Except ProtoCodecError (JStr × List Nat) :=
  match leI32Decode s with
  | .error e => .error e
  | .ok (rlenI, s1) =>
    match i32toUsize rlenI with
    | .error e => .error e
    | .ok rlen =>
      match readExact rlen s1 with
      | .error e => .error e
      | .ok (rbytes, s2) =>
        match utf8Decode rbytes with
        | none => .error .UTF8Error
        | some str => .ok (str, s2)

/-- Source lines 127–156: the parsed chain region must be a JSON object with
a `"chain"` key holding an array; anything else is `FormatMismatch`. -/
def extractChainJwts (v : JsonValue) : Except ProtoCodecError (List JsonValue) :=
  match v with
  | .obj fields =>
    match jlookup fields (strChars r"chain") with
    | none => .error .FormatMismatch
    | some c =>
      match c with
      | .arr xs => .ok xs
      | _ => .error .FormatMismatch
  | _ => .error .FormatMismatch

/-- Source lines 179–193: when `key_data` is empty (the first token, or any
token following a link whose claimed key decoded to zero bytes), the token's
own header must carry `x5u` (`FormatMismatch` otherwise), whose
standard-base64 decoding becomes the current key; otherwise the accumulated
`key_data` is kept. -/
def chainAnchor (key_data : List Nat) (header : JwtHeader) :
    Except ProtoCodecError (List Nat) :=
  if key_data.isEmpty then
    match header.x5u with
    | none => .error .FormatMismatch
    | some x =>
      match b64StdDecode x with
      | none => .error .Base64DecodeError
      | some k => .ok k
  else .ok key_data

/-- Source lines 203–212: every decoded token's claims must carry a
string-valued `identityPublicKey` whose standard-base64 decoding becomes the
next `key_data`; a missing or non-string claim is `FormatMismatch`. -/
def extractIdpk (claims : Claims) : Except ProtoCodecError (List Nat) :=
  match jlookup claims (strChars r"identityPublicKey") with
  | none => .error .FormatMismatch
  | some (.str str) =>
    match b64StdDecode str with
    | none => .error .Base64DecodeError
    | some k2 => .ok k2
  | some _ => .error .FormatMismatch

/-- Source lines 160–215, one iteration of the chain loop, with the mutable
`key_data` made an explicit argument.  The element must be a JSON string;
its header is decoded (`JwtError` on failure); the current key is resolved
by `chainAnchor`; the token's claims are then decoded (the source passes
`DecodingKey::from_ec_der(&key_data)`, unused because signature validation
is disabled); finally `extractIdpk` yields the next `key_data`. -/
def walkStep (key_data : List Nat) (jwt_json : JsonValue) :
    Except ProtoCodecError (Claims × List Nat) :=
  match jwt_json with
  | .str jwt_string =>
    match decode_header jwt_string with
    | .error _ => .error .JwtError
    | .ok header =>
      match chainAnchor key_data header with
      | .error e => .error e
      | .ok _currentKey =>
        match decodeClaimsInsecure jwt_string with
        | .error _ => .error .JwtError
        | .ok claims =>
          match extractIdpk claims with
          | .error e => .error e
          | .ok k2 => .ok (claims, k2)
  | _ => .error .FormatMismatch

/-- The chain loop of source lines 160–215: `key_data` starts empty and is
threaded through `walkStep`; claims are accumulated in order. -/
def walkAux (key_data : List Nat) (acc : List Claims) :
    List JsonValue → Except ProtoCodecError (List Claims × List Nat)
  | [] => .ok (acc, key_data)
  | j :: rest =>
    match walkStep key_data j with
    | .error e => .error e
    | .ok (claims, newKey) => walkAux newKey (acc ++ [claims]) rest

/-- `ConnectionRequest::proto_deserialize` (source lines 93–259): chain
region framing, JSON parse (`JsonError` on failure), envelope shape check,
chain walk from an empty key, raw-token region framing, raw-token header
decode and claims decode (the source passes `DecodingKey::from_ec_der(&vec![])`
— an empty key — which is unused because signature validation is
disabled). -/
def ConnectionRequest.proto_deserialize (stream : List Nat) :
    Except ProtoCodecError (ConnectionRequest × List Nat) :=
  match readChainRegion stream with
  | .error e => .error e
  | .ok (certificate_chain_string, s1) =>
    match jsonParse certificate_chain_string with
    | .error _ => .error .JsonError
    | .ok certificate_chain_json =>
      match extractChainJwts certificate_chain_json with
      | .error e => .error e
      | .ok jwts =>
        match walkAux [] [] jwts with
        | .error e => .error e
        | .ok (certificate_chain, _) =>
          match readRawRegion s1 with
          | .error e => .error e
          | .ok (raw_token_string, s2) =>
            match decode_header raw_token_string with
            | .error _ => .error .JwtError
            | .ok _ =>
              match decodeClaimsInsecure raw_token_string with
              | .error _ => .error .JwtError
              | .ok raw_token => .ok (⟨certificate_chain, raw_token⟩, s2)

end BedrockRs

namespace BedrockRs

/-! ## Concrete handshake inputs used by the theorems below

`mkHandshake` assembles a handshake payload per the wire format (spec §6):
overall `VAR<u32>` length, `LE<i32>` chain-region length, the chain-region
bytes, `LE<i32>` raw-token length, the raw-token bytes.  The JWTs below are
compact tokens whose first two segments are the URL-safe base64 of the JSON
documents noted on each constant; the signature segment is arbitrary
(`jsonwebtoken` never reads it under the handshake's validation settings).
`QQ==` is the standard base64 of the byte `[65]` and `Qg==` of `[66]`. -/

/-- Assemble a handshake payload from its chain-region JSON text and its
raw-token text. -/
def mkHandshake (chainJson rawTok : String) : List Nat :=
  let c := strBytes chainJson
  let r := strBytes rawTok
  varEncodeNat (c.length + r.length + 8) ++ le4Encode c.length ++ c ++
    le4Encode r.length ++ r

/-- The characters of `identityPublicKey`. -/
def idpkKey : JStr := strChars r"identityPublicKey"

/-- Token with header `{"alg":"ES384","x5u":"QQ=="}` and claims
`{"identityPublicKey":"QQ=="}`. -/
def tokT1 : String :=
  r"eyJhbGciOiJFUzM4NCIsIng1dSI6IlFRPT0ifQ.eyJpZGVudGl0eVB1YmxpY0tleSI6IlFRPT0ifQ.AA"

/-- Token with header `{"alg":"ES384","x5u":"Qg=="}` and claims
`{"identityPublicKey":"QQ=="}`: its own `x5u` anchor (`Qg==`, the byte 66)
differs from the previous token's claimed key (`QQ==`, the byte 65). -/
def tokT2 : String :=
  r"eyJhbGciOiJFUzM4NCIsIng1dSI6IlFnPT0ifQ.eyJpZGVudGl0eVB1YmxpY0tleSI6IlFRPT0ifQ.AA"

/-- Token with header `{"alg":"ES384"}` (no `x5u`) and claims
`{"identityPublicKey":"QQ=="}`. -/
def tokT3 : String :=
  r"eyJhbGciOiJFUzM4NCJ9.eyJpZGVudGl0eVB1YmxpY0tleSI6IlFRPT0ifQ.AA"

/-- Token with header `{"alg":"ES384","x5u":"QQ=="}` and claims
`{"identityPublicKey":""}` — its claimed key decodes to zero bytes. -/
def tokTE : String :=
  r"eyJhbGciOiJFUzM4NCIsIng1dSI6IlFRPT0ifQ.eyJpZGVudGl0eVB1YmxpY0tleSI6IiJ9.AA"

/-- Token with header `{"alg":"ES384","x5u":"QQ=="}` and claims
`{"identityPublicKey":"Qg=="}`. -/
def tokTB : String :=
  r"eyJhbGciOiJFUzM4NCIsIng1dSI6IlFRPT0ifQ.eyJpZGVudGl0eVB1YmxpY0tleSI6IlFnPT0ifQ.AA"

/-- Token with header `{"alg":"ES384"}` and claims `{"a":1}` (no
`identityPublicKey`); used as the raw client-metadata token and as a chain
token lacking the identity claim. -/
def tokTN : String := r"eyJhbGciOiJFUzM4NCJ9.eyJhIjoxfQ.AA"

/-- Chain region `{"chain":[tokT1, tokT2, tokT3]}`: a 3-token chain in which
link 2's anchor (`x5u` of `tokT2`) mismatches link 1's claimed
`identityPublicKey`. -/
def chainBroken3Text : String :=
  r#"{"chain":["eyJhbGciOiJFUzM4NCIsIng1dSI6IlFRPT0ifQ.eyJpZGVudGl0eVB1YmxpY0tleSI6IlFRPT0ifQ.AA","eyJhbGciOiJFUzM4NCIsIng1dSI6IlFnPT0ifQ.eyJpZGVudGl0eVB1YmxpY0tleSI6IlFRPT0ifQ.AA","eyJhbGciOiJFUzM4NCJ9.eyJpZGVudGl0eVB1YmxpY0tleSI6IlFRPT0ifQ.AA"]}"#

/-- Chain region `{"chain":[tokTE, tokT3]}`: the first token claims an
empty `identityPublicKey`, the second token's header has no `x5u`. -/
def chainEmptyKeyText : String :=
  r#"{"chain":["eyJhbGciOiJFUzM4NCIsIng1dSI6IlFRPT0ifQ.eyJpZGVudGl0eVB1YmxpY0tleSI6IiJ9.AA","eyJhbGciOiJFUzM4NCJ9.eyJpZGVudGl0eVB1YmxpY0tleSI6IlFRPT0ifQ.AA"]}"#

/-- Chain region `{"chain":[tokT1]}`: terminal claimed key `QQ==` (byte 65). -/
def chainTermAText : String :=
  r#"{"chain":["eyJhbGciOiJFUzM4NCIsIng1dSI6IlFRPT0ifQ.eyJpZGVudGl0eVB1YmxpY0tleSI6IlFRPT0ifQ.AA"]}"#

/-- Chain region `{"chain":[tokTB]}`: terminal claimed key `Qg==` (byte 66). -/
def chainTermBText : String :=
  r#"{"chain":["eyJhbGciOiJFUzM4NCIsIng1dSI6IlFRPT0ifQ.eyJpZGVudGl0eVB1YmxpY0tleSI6IlFnPT0ifQ.AA"]}"#

/-- Chain region `{"chain":["A",true]}`: the `chain` value is not an array
of strings, and its first element is a string that is not a decodable
JWT. -/
def chainBadElemText : String := r#"{"chain":["A",true]}"#

/-- Chain region `[]`: parses as JSON but is not an object. -/
def jsonArrText : String := r"[]"

/-- The claims map `{"identityPublicKey":"QQ=="}` as decoded. -/
def claimsQQ : Claims := [(idpkKey, .str (strChars r"QQ=="))]

/-- The claims map `{"a":1}` as decoded. -/
def claimsRaw : Claims := [(strChars r"a", .num (strChars r"1"))]

end BedrockRs

namespace BedrockRs

/-! ## Varint round-trip lemmas -/

theorem varDecodeAux_varEncodeAux :
    ∀ (fuel g n : Nat) (rest : List Nat), n ≤ fuel → n < 128 ^ (g + 1) →
      varDecodeAux (g + 1) (varEncodeAux fuel n ++ rest) = .ok (n, rest) := by
  intro fuel
  induction fuel with
  | zero =>
    intro g n rest hfuel _
    have hn : n = 0 := Nat.le_zero.mp hfuel
    subst hn
    simp [varEncodeAux, varDecodeAux]
  | succ fuel ih =>
    intro g n rest hfuel hbound
    by_cases hsmall : n < 128
    · simp [varEncodeAux, hsmall, varDecodeAux]
    · have hg : 0 < g := by
        by_contra hg0
        have : g = 0 := by omega
        subst this
        simp at hbound
        omega
      obtain ⟨g', rfl⟩ : ∃ g', g = g' + 1 := ⟨g - 1, by omega⟩
      have hdivfuel : n / 128 ≤ fuel := by
        have := Nat.div_lt_self (by omega : 0 < n) (by omega : 1 < 128)
        omega
      have hdivbound : n / 128 < 128 ^ (g' + 1) := by
        rw [Nat.div_lt_iff_lt_mul (by omega : 0 < 128)]
        calc n < 128 ^ (g' + 1 + 1) := hbound
        _ = 128 ^ (g' + 1) * 128 := by ring
      have hrec := ih g' (n / 128) rest hdivfuel hdivbound
      simp only [varEncodeAux, if_neg hsmall, List.cons_append, varDecodeAux]
      rw [if_neg (by omega), hrec]
      simp only [Except.ok.injEq, Prod.mk.injEq, and_true]
      omega

theorem varDecodeU32_varEncodeNat (n : Nat) (rest : List Nat) (h : n < 4294967296) :
    varDecodeU32 (varEncodeNat n ++ rest) = .ok (n, rest) := by
  have := varDecodeAux_varEncodeAux n 4 n rest le_rfl (by norm_num; omega)
  simpa [varDecodeU32, varEncodeNat] using this

theorem varDecodeU64_varEncodeNat (n : Nat) (rest : List Nat)
    (h : n < 18446744073709551616) :
    varDecodeU64 (varEncodeNat n ++ rest) = .ok (n, rest) := by
  have := varDecodeAux_varEncodeAux n 9 n rest le_rfl (by norm_num; omega)
  simpa [varDecodeU64, varEncodeNat] using this

theorem unzigzag_zigzag (n : Int) : unzigzag (zigzag n) = n := by
  unfold zigzag unzigzag
  by_cases h : 0 ≤ n
  · rw [if_pos h]
    have h2 : (2 * n).toNat % 2 = 0 := by omega
    rw [if_pos h2]
    omega
  · rw [if_neg h]
    have h2 : ¬((-2 * n - 1).toNat % 2 = 0) := by omega
    rw [if_neg h2]
    omega

theorem zigzag_lt (n : Int) (h1 : -2147483648 ≤ n) (h2 : n < 2147483648) :
    zigzag n < 4294967296 := by
  unfold zigzag
  split <;> omega

theorem varDecodeI32_varEncodeI32 (n : Int) (rest : List Nat)
    (h1 : -2147483648 ≤ n) (h2 : n < 2147483648) :
    varDecodeI32 (varEncodeI32 n ++ rest) = .ok (n, rest) := by
  unfold varDecodeI32 varEncodeI32
  rw [varDecodeU32_varEncodeNat (zigzag n) rest (zigzag_lt n h1 h2)]
  dsimp only
  rw [unzigzag_zigzag]

theorem le4Decode_le4Encode (m : Nat) (rest : List Nat) (h : m < 4294967296) :
    le4Decode (le4Encode m ++ rest) = .ok (m, rest) := by
  unfold le4Encode le4Decode
  simp only [List.cons_append, List.nil_append]
  congr 2
  omega

theorem leF32Decode_leF32Encode (bits : Nat) (rest : List Nat) (h : bits < 4294967296) :
    leF32Decode (leF32Encode bits ++ rest) = .ok (bits, rest) :=
  le4Decode_le4Encode bits rest h

theorem actorRuntimeID_roundtrip (a : ActorRuntimeID) (rest : List Nat)
    (h : a.id < 18446744073709551616) :
    ActorRuntimeID.proto_deserialize (a.proto_serialize ++ rest) = .ok (a, rest) := by
  unfold ActorRuntimeID.proto_deserialize ActorRuntimeID.proto_serialize varEncodeU64
  rw [varDecodeU64_varEncodeNat a.id rest h]

/-- C5: for every `AnimatePacket` value `p` (every `AnimateAction` variant,
including `Swing` with its extra `rowing_time` field), deserializing the bytes
produced by serializing `p` yields exactly `p` and consumes exactly the
serialized bytes.  The in-range hypotheses state that the fields hold machine
values (`u64` runtime id, 32-bit `f32` pattern), which Rust's types
guarantee. -/
theorem animate_roundtrip_C5 (p : AnimatePacket) (rest : List Nat)
    (hid : p.target_runtime_id.id < 18446744073709551616)
    (hrt : ∀ rt, p.action = .Swing rt → rt < 4294967296) :
    AnimatePacket.proto_deserialize (p.proto_serialize ++ rest) = .ok (p, rest) := by
  obtain ⟨action, tid⟩ := p
  simp only at hid
  cases action with
  | Swing rt =>
    have hrt' : rt < 4294967296 := hrt rt rfl
    simp only [AnimatePacket.proto_serialize, AnimatePacket.proto_deserialize,
      List.append_assoc]
    rw [varDecodeI32_varEncodeI32 1 _ (by norm_num) (by norm_num)]
    dsimp only
    rw [actorRuntimeID_roundtrip tid _ hid]
    dsimp only
    norm_num
    rw [leF32Decode_leF32Encode rt rest hrt']
  | NoAction =>
    simp only [AnimatePacket.proto_serialize, AnimatePacket.proto_deserialize,
      List.append_assoc, List.append_nil]
    rw [varDecodeI32_varEncodeI32 0 _ (by norm_num) (by norm_num)]
    dsimp only
    rw [actorRuntimeID_roundtrip tid _ hid]
    dsimp only
    norm_num
  | WakeUp =>
    simp only [AnimatePacket.proto_serialize, AnimatePacket.proto_deserialize,
      List.append_assoc, List.append_nil]
    rw [varDecodeI32_varEncodeI32 3 _ (by norm_num) (by norm_num)]
    dsimp only
    rw [actorRuntimeID_roundtrip tid _ hid]
    dsimp only
    norm_num
  | CriticalHit =>
    simp only [AnimatePacket.proto_serialize, AnimatePacket.proto_deserialize,
      List.append_assoc, List.append_nil]
    rw [varDecodeI32_varEncodeI32 4 _ (by norm_num) (by norm_num)]
    dsimp only
    rw [actorRuntimeID_roundtrip tid _ hid]
    dsimp only
    norm_num
  | MagicCriticalHit =>
    simp only [AnimatePacket.proto_serialize, AnimatePacket.proto_deserialize,
      List.append_assoc, List.append_nil]
    rw [varDecodeI32_varEncodeI32 5 _ (by norm_num) (by norm_num)]
    dsimp only
    rw [actorRuntimeID_roundtrip tid _ hid]
    dsimp only
    norm_num
  | RowRight =>
    simp only [AnimatePacket.proto_serialize, AnimatePacket.proto_deserialize,
      List.append_assoc, List.append_nil]
    rw [varDecodeI32_varEncodeI32 128 _ (by norm_num) (by norm_num)]
    dsimp only
    rw [actorRuntimeID_roundtrip tid _ hid]
    dsimp only
    norm_num
  | RowLeft =>
    simp only [AnimatePacket.proto_serialize, AnimatePacket.proto_deserialize,
      List.append_assoc, List.append_nil]
    rw [varDecodeI32_varEncodeI32 129 _ (by norm_num) (by norm_num)]
    dsimp only
    rw [actorRuntimeID_roundtrip tid _ hid]
    dsimp only
    norm_num

/-- Witness for C5 at a concrete `Swing` packet. -/
theorem animate_roundtrip_C5_witness :
    AnimatePacket.proto_deserialize
        ((⟨.Swing 1065353216, ⟨300⟩⟩ : AnimatePacket).proto_serialize ++ []) =
      .ok (⟨.Swing 1065353216, ⟨300⟩⟩, []) :=
  animate_roundtrip_C5 ⟨.Swing 1065353216, ⟨300⟩⟩ [] (by norm_num)
    (by intro rt h; injection h with h; omega)

end BedrockRs

namespace BedrockRs

/-- C6 (amended): `AnimatePacket` deserialization reads an explicit integer
tag and returns `InvalidEnumID` for every tag outside the recognised set,
never default-constructing a variant; `Difficulty::proto_deserialize`,
however, is an unimplemented `todo!()` that panics on every input instead of
returning an error result. -/
theorem enum_tag_dispatch_C6 :
    (∀ (s s1 s2 : List Nat) (tag : Int) (rid : ActorRuntimeID),
        varDecodeI32 s = .ok (tag, s1) →
        ActorRuntimeID.proto_deserialize s1 = .ok (rid, s2) →
        tag ≠ 0 → tag ≠ 1 → tag ≠ 3 → tag ≠ 4 → tag ≠ 5 → tag ≠ 128 → tag ≠ 129 →
        AnimatePacket.proto_deserialize s = .error .InvalidEnumID) ∧
    (∀ s : List Nat, Difficulty.proto_deserialize s = .panicked) := by
  constructor
  · intro s s1 s2 tag rid h1 h2 ht0 ht1 ht3 ht4 ht5 ht128 ht129
    simp only [AnimatePacket.proto_deserialize, h1, h2]
    simp [ht0, ht1, ht3, ht4, ht5, ht128, ht129]
  · intro s
    rfl

/-- Witness for C6: tag `2` (wire byte `4` after zigzag) is unknown to
`AnimateAction` and yields `InvalidEnumID`; `Difficulty` deserialization
panics. -/
theorem enum_tag_dispatch_C6_witness :
    AnimatePacket.proto_deserialize [4, 7] = .error .InvalidEnumID ∧
    Difficulty.proto_deserialize [] = .panicked :=
  ⟨enum_tag_dispatch_C6.1 [4, 7] [7] [] 2 ⟨7⟩ rfl rfl
      (by norm_num) (by norm_num) (by norm_num) (by norm_num) (by norm_num)
      (by norm_num) (by norm_num),
    enum_tag_dispatch_C6.2 []⟩

/-- C6 counterexample: the claim as stated says `Difficulty` deserialization
"returns an explicit error result ... and never panics", but
`Difficulty::proto_deserialize` is `todo!()`: it panics on the concrete input
`[0]` (a valid `Peaceful` tag) and returns no error value at all. -/
theorem difficulty_deserialize_panics_C6_cex :
    Difficulty.proto_deserialize [0] = .panicked ∧
    Difficulty.proto_deserialize [0] ≠ .err .InvalidEnumID := by
  exact ⟨rfl, by decide⟩

/-- C7: on the `RaknetUDP` transport variant, `send` hands the underlying
channel exactly one identifier byte (`RAKNET_GAME_PACKET_ID`) followed by the
unmodified payload, and `recv` reads exactly one leading byte: the remaining
bytes pass through unchanged when it matches the identifier, and any other
leading byte is a format error. -/
theorem raknet_tag_C7 :
    (∀ payload : List Nat,
        TransportLayerConn.RaknetUDP.send payload =
          .ok (RAKNET_GAME_PACKET_ID :: payload)) ∧
    (∀ rest : List Nat,
        TransportLayerConn.RaknetUDP.recv (RAKNET_GAME_PACKET_ID :: rest) = .ok rest) ∧
    (∀ (b : Nat) (rest : List Nat), b ≠ RAKNET_GAME_PACKET_ID →
        TransportLayerConn.RaknetUDP.recv (b :: rest) =
          .err (.RaknetUDPError .FormatError)) := by
  refine ⟨fun payload => rfl, fun rest => ?_, fun b rest hb => ?_⟩
  · simp [TransportLayerConn.recv]
  · simp [TransportLayerConn.recv, hb]

/-- Witness for C7 at concrete buffers (mismatching leading byte `0`). -/
theorem raknet_tag_C7_witness :
    TransportLayerConn.RaknetUDP.send [1, 2] = .ok (RAKNET_GAME_PACKET_ID :: [1, 2]) ∧
    TransportLayerConn.RaknetUDP.recv (RAKNET_GAME_PACKET_ID :: [9]) = .ok [9] ∧
    TransportLayerConn.RaknetUDP.recv (0 :: []) = .err (.RaknetUDPError .FormatError) :=
  ⟨raknet_tag_C7.1 [1, 2], raknet_tag_C7.2.1 [9], raknet_tag_C7.2.2 0 [] (by decide)⟩

/-- C8 counterexample: the claim says send/recv on a non-`RaknetUDP` variant
returns a hard `NotImplemented` error and is never a panic placeholder; but
both arms are `todo!()`, so on `NetherNet` with an empty buffer they panic
and do not return the `NotImplemented` error result. -/
theorem unimplemented_transport_C8_cex :
    TransportLayerConn.NetherNet.send [] = .panicked ∧
    TransportLayerConn.NetherNet.recv [] = .panicked ∧
    TransportLayerConn.NetherNet.send [] ≠ .err .NotImplemented :=
  ⟨rfl, rfl, by decide⟩

/-- C8 (amended): for every transport variant other than `RaknetUDP` (i.e.
`NetherNet`), `send` and `recv` hit a `todo!()` panic placeholder on every
input: not a silent no-op, but also not the `NotImplemented` error result the
spec prescribes for a reimplementation. -/
theorem unimplemented_transport_C8 :
    ∀ (payload datagram : List Nat),
      TransportLayerConn.NetherNet.send payload = .panicked ∧
      TransportLayerConn.NetherNet.recv datagram = .panicked :=
  fun _ _ => ⟨rfl, rfl⟩

end BedrockRs

namespace BedrockRs

set_option maxRecDepth 1000000 in
/-- C1: the deserializer accepts the broken 3-token chain
`chainBroken3Text` — link 2's anchor (`x5u` of `tokT2`, decoding to byte 66)
differs from link 1's claimed `identityPublicKey` (`QQ==`, decoding to byte
65), yet `proto_deserialize` returns `Ok` with a 3-element certificate chain
and a non-empty raw-token claims map: the broken link is silently skipped
and no `CredentialChainBroken` error is produced (signature validation is
disabled at the source's decode sites and subsequent `x5u` headers are never
compared with the previous claimed key). -/
theorem broken_chain_accepted_C1 :
    ((ConnectionRequest.proto_deserialize (mkHandshake chainBroken3Text tokTN)).map
        (fun (r, rest) => (r.certificate_chain, r.raw_token, rest)) =
      .ok ([claimsQQ, claimsQQ, claimsQQ], claimsRaw, [])) ∧
    ((decode_header (strChars tokT2)).map (fun h => h.x5u) =
      .ok (some (strChars r"Qg=="))) ∧
    ((decodeClaimsInsecure (strChars tokT1)).map (fun c => jlookup c idpkKey) =
      .ok (some (.str (strChars r"QQ==")))) ∧
    b64StdDecode (strChars r"Qg==") = some [66] ∧
    b64StdDecode (strChars r"QQ==") = some [65] :=
  ⟨rfl, rfl, rfl, rfl, rfl⟩

set_option maxRecDepth 1000000 in
/-- C2: the raw client-metadata token is not decoded with the terminal chain
key: two handshakes whose chain walks end in different terminal keys (bytes
`[65]` vs `[66]`) but share the same raw-token region produce the same
raw-token claims map — the source decodes the raw token with
`DecodingKey::from_ec_der(&vec![])`, an empty key, under disabled signature
validation (the claims map itself is stored in `raw_token` as stated). -/
theorem raw_token_key_independent_C2 :
    ((walkAux [] [] [.str (strChars tokT1)]).map (fun (_, k) => k) = .ok [65]) ∧
    ((walkAux [] [] [.str (strChars tokTB)]).map (fun (_, k) => k) = .ok [66]) ∧
    ((ConnectionRequest.proto_deserialize (mkHandshake chainTermAText tokTN)).map
        (fun (r, _) => r.raw_token) = .ok claimsRaw) ∧
    ((ConnectionRequest.proto_deserialize (mkHandshake chainTermBText tokTN)).map
        (fun (r, _) => r.raw_token) = .ok claimsRaw) :=
  ⟨rfl, rfl, rfl, rfl⟩

end BedrockRs

namespace BedrockRs

/-! ## Chain-walk lemmas -/

theorem extractIdpk_ok (c : Claims) (k2 : List Nat) (h : extractIdpk c = .ok k2) :
    ∃ s, jlookup c idpkKey = some (.str s) ∧ b64StdDecode s = some k2 := by
  unfold extractIdpk at h
  cases hl : jlookup c (strChars r"identityPublicKey") with
  | none => simp [hl] at h
  | some v =>
    simp only [hl] at h
    cases v with
    | str str0 =>
      cases hb : b64StdDecode str0 with
      | none => simp [hb] at h
      | some k =>
        simp only [hb, Except.ok.injEq] at h
        subst h
        exact ⟨str0, by simpa [idpkKey] using hl, hb⟩
    | null => simp at h
    | bool b => simp at h
    | num r => simp at h
    | arr xs => simp at h
    | obj fs => simp at h

theorem extractIdpk_none (c : Claims) (hl : jlookup c idpkKey = none) :
    extractIdpk c = .error .FormatMismatch := by
  unfold extractIdpk
  simp [show jlookup c (strChars r"identityPublicKey") = none from by
    simpa [idpkKey] using hl]

theorem chainAnchor_nonempty (k : List Nat) (hk : k ≠ []) (header : JwtHeader) :
    chainAnchor k header = .ok k := by
  cases k with
  | nil => exact absurd rfl hk
  | cons a t => rfl

theorem chainAnchor_empty_none (header : JwtHeader) (hx : header.x5u = none) :
    chainAnchor [] header = .error .FormatMismatch := by
  unfold chainAnchor
  simp [hx]

theorem decodeClaims_header (s : JStr) (c : Claims)
    (hc : decodeClaimsInsecure s = .ok c) : ∃ hd, decode_header s = .ok hd := by
  unfold decodeClaimsInsecure at hc
  cases hp : jwtParts s with
  | error e => simp [hp] at hc
  | ok p =>
    simp only [hp] at hc
    cases hh : decode_header s with
    | error e => simp [hh] at hc
    | ok hd => exact ⟨hd, rfl⟩

theorem walkStep_ok_idpk (k : List Nat) (j : JsonValue) (c : Claims) (k2 : List Nat)
    (h : walkStep k j = .ok (c, k2)) :
    ∃ s, jlookup c idpkKey = some (.str s) ∧ b64StdDecode s = some k2 := by
  cases j with
  | str s =>
    unfold walkStep at h
    cases hh : decode_header s with
    | error e => simp [hh] at h
    | ok header =>
      simp only [hh] at h
      cases ha : chainAnchor k header with
      | error e => simp [ha] at h
      | ok kcur =>
        simp only [ha] at h
        cases hc : decodeClaimsInsecure s with
        | error e => simp [hc] at h
        | ok claims =>
          simp only [hc] at h
          cases hi : extractIdpk claims with
          | error e => simp [hi] at h
          | ok k3 =>
            simp only [hi, Except.ok.injEq, Prod.mk.injEq] at h
            obtain ⟨rfl, rfl⟩ := h
            exact extractIdpk_ok claims k3 hi
  | null => simp [walkStep] at h
  | bool b => simp [walkStep] at h
  | num r => simp [walkStep] at h
  | arr xs => simp [walkStep] at h
  | obj fs => simp [walkStep] at h

theorem walkStep_no_x5u (s : JStr) (hd : JwtHeader)
    (hh : decode_header s = .ok hd) (hx : hd.x5u = none) :
    walkStep [] (.str s) = .error .FormatMismatch := by
  unfold walkStep
  simp [hh, chainAnchor_empty_none hd hx]

theorem walkStep_missing_idpk (k k1 : List Nat) (s : JStr) (hd : JwtHeader) (c : Claims)
    (hh : decode_header s = .ok hd)
    (ha : chainAnchor k hd = .ok k1)
    (hc : decodeClaimsInsecure s = .ok c)
    (hl : jlookup c idpkKey = none) :
    walkStep k (.str s) = .error .FormatMismatch := by
  unfold walkStep
  simp [hh, ha, hc, extractIdpk_none c hl]

/-- C3 (amended): during the chain walk, a successful step stores the
base64-decoded `identityPublicKey` claimed by the processed token as the
anchor for the next token; a token reached with an *empty* accumulated key —
the first token, or any token following a link whose claimed key decoded to
zero bytes — must carry `x5u` in its own header (`FormatMismatch`
otherwise); and a decoded token whose body lacks `identityPublicKey` aborts
with `FormatMismatch`.  (The unamended claim made `x5u` a requirement of the
first token only; the counterexample shows a later token hitting the same
requirement after a zero-byte claimed key.) -/
theorem chain_anchor_C3 :
    (∀ (k : List Nat) (j : JsonValue) (c : Claims) (k2 : List Nat),
        walkStep k j = .ok (c, k2) →
        ∃ s, jlookup c idpkKey = some (.str s) ∧ b64StdDecode s = some k2) ∧
    (∀ (s : JStr) (hd : JwtHeader),
        decode_header s = .ok hd → hd.x5u = none →
        walkStep [] (.str s) = .error .FormatMismatch) ∧
    (∀ (k : List Nat) (s : JStr) (c : Claims),
        k ≠ [] → decodeClaimsInsecure s = .ok c → jlookup c idpkKey = none →
        walkStep k (.str s) = .error .FormatMismatch) := by
  refine ⟨walkStep_ok_idpk, walkStep_no_x5u, ?_⟩
  intro k s c hk hc hl
  obtain ⟨hd, hh⟩ := decodeClaims_header s c hc
  exact walkStep_missing_idpk k k s hd c hh (chainAnchor_nonempty k hk hd) hc hl

set_option maxRecDepth 1000000 in
/-- Witness for C3 at concrete tokens: a successful step on `tokT1` yields
the decoded claimed key; a token with no `x5u` reached with an empty key
fails with `FormatMismatch`; a token lacking `identityPublicKey` reached
with a non-empty key fails with `FormatMismatch`. -/
theorem chain_anchor_C3_witness :
    (∃ s, jlookup claimsQQ idpkKey = some (.str s) ∧ b64StdDecode s = some [65]) ∧
    walkStep [] (.str (strChars tokT3)) = .error .FormatMismatch ∧
    walkStep [65] (.str (strChars tokTN)) = .error .FormatMismatch :=
  ⟨chain_anchor_C3.1 [] (.str (strChars tokT1)) claimsQQ [65] (by rfl),
   chain_anchor_C3.2.1 (strChars tokT3) ⟨strChars r"ES384", none⟩ (by rfl) rfl,
   chain_anchor_C3.2.2 [65] (strChars tokTN) claimsRaw (by decide) (by rfl) (by rfl)⟩

set_option maxRecDepth 1000000 in
/-- C3 counterexample: in the chain `[tokTE, tokT3]` the first token has
`x5u` and a (zero-byte-decoding) string `identityPublicKey`, and the second
token has a decodable `identityPublicKey` — under the claim's anchor rule
nothing is missing — yet deserialization aborts with `FormatMismatch`: the
second token is reached with an empty accumulated key and is therefore
required to carry its own `x5u`, which it lacks. -/
theorem chain_anchor_empty_key_C3_cex :
    ConnectionRequest.proto_deserialize (mkHandshake chainEmptyKeyText tokTN) =
      .error .FormatMismatch ∧
    ((decode_header (strChars tokTE)).map (fun h => h.x5u) =
      .ok (some (strChars r"QQ=="))) ∧
    ((decodeClaimsInsecure (strChars tokTE)).map (fun c => jlookup c idpkKey) =
      .ok (some (.str []))) ∧
    b64StdDecode [] = some [] ∧
    ((decode_header (strChars tokT3)).map (fun h => h.x5u) = .ok none) ∧
    ((decodeClaimsInsecure (strChars tokT3)).map (fun c => jlookup c idpkKey) =
      .ok (some (.str (strChars r"QQ==")))) :=
  ⟨rfl, rfl, rfl, rfl, rfl, rfl⟩

end BedrockRs

namespace BedrockRs

/-! ## Envelope-shape lemmas -/

theorem extractChainJwts_not_obj (v : JsonValue) (hv : ∀ fields, v ≠ .obj fields) :
    extractChainJwts v = .error .FormatMismatch := by
  cases v <;> first | rfl | exact absurd rfl (hv _)

theorem extractChainJwts_no_chain (fields : List (JStr × JsonValue))
    (h : jlookup fields (strChars r"chain") = none) :
    extractChainJwts (.obj fields) = .error .FormatMismatch := by
  unfold extractChainJwts
  simp [h]

theorem extractChainJwts_not_arr (fields : List (JStr × JsonValue)) (c : JsonValue)
    (h : jlookup fields (strChars r"chain") = some c) (hc : ∀ xs, c ≠ .arr xs) :
    extractChainJwts (.obj fields) = .error .FormatMismatch := by
  unfold extractChainJwts
  simp only [h]

theorem proto_deserialize_shape (bytes : List Nat) (s : JStr) (s1 : List Nat)
    (v : JsonValue)
    (h1 : readChainRegion bytes = .ok (s, s1))
    (h2 : jsonParse s = .ok v)
    (h3 : extractChainJwts v = .error .FormatMismatch) :
    ConnectionRequest.proto_deserialize bytes = .error .FormatMismatch := by
  unfold ConnectionRequest.proto_deserialize
  simp [h1, h2, h3]

/-- C4 (amended): a chain region that parses as JSON but is not an object,
or is an object without a `"chain"` key, or whose `"chain"` value is not an
array, makes `proto_deserialize` return `FormatMismatch`; a `"chain"` array
*element* that is not a string likewise gives `FormatMismatch` when the walk
reaches it, but an earlier string element may fail its own JWT decode first
with a different error (`JwtError`, as the counterexample shows); and for
every input the function returns either a complete `ConnectionRequest` or an
error — never a partially-populated value. -/
theorem chain_shape_format_mismatch_C4 :
    (∀ (bytes : List Nat) (s : JStr) (s1 : List Nat) (v : JsonValue),
        readChainRegion bytes = .ok (s, s1) → jsonParse s = .ok v →
        ((∀ fields, v ≠ .obj fields) ∨
         (∃ fields, v = .obj fields ∧ jlookup fields (strChars r"chain") = none) ∨
         (∃ fields c, v = .obj fields ∧ jlookup fields (strChars r"chain") = some c ∧
            ∀ xs, c ≠ .arr xs)) →
        ConnectionRequest.proto_deserialize bytes = .error .FormatMismatch) ∧
    (∀ (k : List Nat) (j : JsonValue), (∀ s, j ≠ .str s) →
        walkStep k j = .error .FormatMismatch) ∧
    (∀ bytes : List Nat,
        (∃ r rest, ConnectionRequest.proto_deserialize bytes = .ok (r, rest)) ∨
        (∃ e, ConnectionRequest.proto_deserialize bytes = .error e)) := by
  refine ⟨?_, ?_, ?_⟩
  · rintro bytes s s1 v h1 h2 (hv | ⟨fields, rfl, hf⟩ | ⟨fields, c, rfl, hf, hc⟩)
    · exact proto_deserialize_shape bytes s s1 v h1 h2 (extractChainJwts_not_obj v hv)
    · exact proto_deserialize_shape bytes s s1 _ h1 h2 (extractChainJwts_no_chain fields hf)
    · exact proto_deserialize_shape bytes s s1 _ h1 h2 (extractChainJwts_not_arr fields c hf hc)
  · intro k j hj
    cases j <;> first | rfl | exact absurd rfl (hj _)
  · intro bytes
    cases h : ConnectionRequest.proto_deserialize bytes with
    | ok p =>
      obtain ⟨r0, rest0⟩ := p
      exact Or.inl ⟨r0, rest0, rfl⟩
    | error e => exact Or.inr ⟨e, rfl⟩

set_option maxRecDepth 1000000 in
/-- Witness for C4: a chain region `[]` (JSON array at top level) yields
`FormatMismatch`; a non-string chain element hit by the walk yields
`FormatMismatch`; the totality conjunct instantiated at the empty input. -/
theorem chain_shape_format_mismatch_C4_witness :
    ConnectionRequest.proto_deserialize (mkHandshake jsonArrText tokTN) =
      .error .FormatMismatch ∧
    walkStep [] (.bool true) = .error .FormatMismatch ∧
    ((∃ r rest, ConnectionRequest.proto_deserialize [] = .ok (r, rest)) ∨
     (∃ e, ConnectionRequest.proto_deserialize [] = .error e)) :=
  ⟨chain_shape_format_mismatch_C4.1 (mkHandshake jsonArrText tokTN)
      (strChars jsonArrText) (le4Encode (strBytes tokTN).length ++ strBytes tokTN)
      (.arr []) (by rfl) (by rfl)
      (Or.inl (fun fields h => JsonValue.noConfusion h)),
   chain_shape_format_mismatch_C4.2.1 [] (.bool true)
      (fun s h => JsonValue.noConfusion h),
   chain_shape_format_mismatch_C4.2.2 []⟩

set_option maxRecDepth 1000000 in
/-- C4 counterexample: the chain region `{"chain":["A",true]}` has a
`"chain"` value that is not an array of strings, yet `proto_deserialize`
returns `JwtError`, not `FormatMismatch`: the walk processes elements in
order, and the first element `"A"` is a string that fails JWT decoding
before the non-string `true` is reached. -/
theorem chain_shape_error_C4_cex :
    ConnectionRequest.proto_deserialize (mkHandshake chainBadElemText tokTN) =
      .error .JwtError ∧
    ProtoCodecError.JwtError ≠ ProtoCodecError.FormatMismatch ∧
    jsonParse (strChars chainBadElemText) =
      .ok (.obj [(strChars r"chain", .arr [.str (strChars r"A"), .bool true])]) :=
  ⟨rfl, by decide, rfl⟩

/-! ## Chain-walk accumulation lemmas -/

theorem walkAux_append (k : List Nat) (acc : List Claims) (ts ts' : List JsonValue) :
    walkAux k acc (ts ++ ts') =
      match walkAux k acc ts with
      | .ok (cs, k1) => walkAux k1 cs ts'
      | .error e => .error e := by
  induction ts generalizing k acc with
  | nil => simp [walkAux]
  | cons j rest ih =>
    simp only [List.cons_append, walkAux]
    cases h : walkStep k j with
    | error e => rfl
    | ok p =>
      obtain ⟨c, k1⟩ := p
      exact ih k1 (acc ++ [c])

theorem walkAux_ok_idpk (ts : List JsonValue) :
    ∀ (k : List Nat) (acc cs : List Claims) (k2 : List Nat),
      walkAux k acc ts = .ok (cs, k2) →
      (∀ c ∈ acc, ∃ s v, jlookup c idpkKey = some (.str s) ∧ b64StdDecode s = some v) →
      ∀ c ∈ cs, ∃ s v, jlookup c idpkKey = some (.str s) ∧ b64StdDecode s = some v := by
  induction ts with
  | nil =>
    intro k acc cs k2 h hacc
    simp only [walkAux, Except.ok.injEq, Prod.mk.injEq] at h
    obtain ⟨rfl, rfl⟩ := h
    exact hacc
  | cons j rest ih =>
    intro k acc cs k2 h hacc
    simp only [walkAux] at h
    cases hs : walkStep k j with
    | error e => simp [hs] at h
    | ok p =>
      obtain ⟨c, k1⟩ := p
      simp only [hs] at h
      refine ih k1 (acc ++ [c]) cs k2 h ?_
      intro c' hc'
      rcases List.mem_append.mp hc' with hmem | hmem
      · exact hacc c' hmem
      · cases List.mem_singleton.mp hmem
        obtain ⟨s, hs1, hs2⟩ := walkStep_ok_idpk k j _ k1 hs
        exact ⟨s, k1, hs1, hs2⟩

/-- C10: the chain walk requires every link — including the terminal,
identity-bearing one — to carry a string-valued, standard-base64-decodable
`identityPublicKey`: a walk that succeeds produces only claims maps with
such a claim, and appending to any successfully walked prefix a final token
that decodes but lacks the claim makes the whole walk fail with
`FormatMismatch`, even though the key decoded from a final link is used to
validate nothing further. -/
theorem terminal_idpk_required_C10 :
    (∀ (ts : List JsonValue) (cs : List Claims) (k2 : List Nat),
        walkAux [] [] ts = .ok (cs, k2) →
        ∀ c ∈ cs, ∃ s v, jlookup c idpkKey = some (.str s) ∧ b64StdDecode s = some v) ∧
    (∀ (ts : List JsonValue) (cs : List Claims) (k1 k3 : List Nat) (t : JStr)
        (hd : JwtHeader) (c : Claims),
        walkAux [] [] ts = .ok (cs, k1) →
        decode_header t = .ok hd →
        chainAnchor k1 hd = .ok k3 →
        decodeClaimsInsecure t = .ok c →
        jlookup c idpkKey = none →
        walkAux [] [] (ts ++ [.str t]) = .error .FormatMismatch) := by
  constructor
  · intro ts cs k2 h
    exact walkAux_ok_idpk ts [] [] cs k2 h
      (by intro c hc; exact absurd hc (List.not_mem_nil c))
  · intro ts cs k1 k3 t hd c h hh ha hc hl
    rw [walkAux_append]
    simp only [h, walkAux]
    simp [walkStep_missing_idpk k1 k3 t hd c hh ha hc hl]

set_option maxRecDepth 1000000 in
/-- Witness for C10: the 1-token walk on `tokT1` succeeds and its only link
carries a decodable `identityPublicKey`; appending the claim-less `tokTN`
makes the walk fail with `FormatMismatch`. -/
theorem terminal_idpk_required_C10_witness :
    (∀ c ∈ [claimsQQ], ∃ s v, jlookup c idpkKey = some (.str s) ∧
        b64StdDecode s = some v) ∧
    walkAux [] [] ([.str (strChars tokT1)] ++ [.str (strChars tokTN)]) =
      .error .FormatMismatch :=
  ⟨terminal_idpk_required_C10.1 [.str (strChars tokT1)] [claimsQQ] [65] (by rfl),
   terminal_idpk_required_C10.2 [.str (strChars tokT1)] [claimsQQ] [65] [65]
     (strChars tokTN) ⟨strChars r"ES384", none⟩ claimsRaw
     (by rfl) (by rfl) (by rfl) (by rfl) (by rfl)⟩

end BedrockRs

namespace BedrockRs

/-! ## Stream-consumption lemmas

Each reader of the handshake framing consumes a determined prefix of the
stream: a successful parse splits the input as consumed-prefix ++ rest, and
re-running the reader on consumed-prefix ++ anything yields the same value.
These feed the wire-order and truncation theorem for C9. -/

theorem varDecodeAux_split (s : List Nat) :
    ∀ (g n : Nat) (rest : List Nat), varDecodeAux g s = .ok (n, rest) →
      ∃ pre, s = pre ++ rest ∧ ∀ tail, varDecodeAux g (pre ++ tail) = .ok (n, tail) := by
  induction s with
  | nil =>
    intro g n rest h
    cases g <;> simp [varDecodeAux] at h
  | cons b s' ih =>
    intro g n rest h
    cases g with
    | zero => simp [varDecodeAux] at h
    | succ g' =>
      by_cases hb : b < 128
      · simp only [varDecodeAux, if_pos hb, Except.ok.injEq, Prod.mk.injEq] at h
        obtain ⟨rfl, rfl⟩ := h
        exact ⟨[b], rfl, fun tail => by simp [varDecodeAux, hb]⟩
      · simp only [varDecodeAux, if_neg hb] at h
        cases hrec : varDecodeAux g' s' with
        | error e => simp [hrec] at h
        | ok p =>
          obtain ⟨n', r⟩ := p
          simp only [hrec, Except.ok.injEq, Prod.mk.injEq] at h
          obtain ⟨rfl, rfl⟩ := h
          obtain ⟨pre, rfl, hpre⟩ := ih g' n' r hrec
          refine ⟨b :: pre, by simp, fun tail => ?_⟩
          simp [varDecodeAux, if_neg hb, hpre tail]

theorem leI32Decode_split (s : List Nat) (v : Int) (rest : List Nat)
    (h : leI32Decode s = .ok (v, rest)) :
    ∃ b0 b1 b2 b3, s = b0 :: b1 :: b2 :: b3 :: rest ∧
      ∀ tail, leI32Decode (b0 :: b1 :: b2 :: b3 :: tail) = .ok (v, tail) := by
  match s with
  | [] => simp [leI32Decode, le4Decode] at h
  | [_] => simp [leI32Decode, le4Decode] at h
  | [_, _] => simp [leI32Decode, le4Decode] at h
  | [_, _, _] => simp [leI32Decode, le4Decode] at h
  | b0 :: b1 :: b2 :: b3 :: s' =>
    simp only [leI32Decode, le4Decode, Except.ok.injEq, Prod.mk.injEq] at h
    obtain ⟨rfl, rfl⟩ := h
    exact ⟨b0, b1, b2, b3, rfl, fun tail => by simp [leI32Decode, le4Decode]⟩

theorem readExact_split (n : Nat) (s buf rest : List Nat)
    (h : readExact n s = .ok (buf, rest)) :
    s = buf ++ rest ∧ buf.length = n ∧
      ∀ tail, readExact n (buf ++ (rest ++ tail)) = .ok (buf, rest ++ tail) := by
  unfold readExact at h
  by_cases hn : n ≤ s.length
  · rw [if_pos hn] at h
    simp only [Except.ok.injEq, Prod.mk.injEq] at h
    obtain ⟨rfl, rfl⟩ := h
    have hlen : (s.take n).length = n := by simp [hn]
    refine ⟨(List.take_append_drop n s).symm, hlen, fun tail => ?_⟩
    have hs : s.take n ++ (s.drop n ++ tail) = s ++ tail := by
      rw [← List.append_assoc, List.take_append_drop]
    rw [hs]
    unfold readExact
    rw [if_pos (by rw [List.length_append]; omega)]
    rw [List.take_append_of_le_length hn, List.drop_append_of_le_length hn]
  · rw [if_neg hn] at h
    cases h

theorem readChainRegion_split (bytes : List Nat) (cs : JStr) (s3 : List Nat)
    (h : readChainRegion bytes = .ok (cs, s3)) :
    ∃ pvar lenB cb, bytes = pvar ++ lenB ++ cb ++ s3 ∧ lenB.length = 4 ∧
      (∃ n, ∀ tail, varDecodeU32 (pvar ++ tail) = .ok (n, tail)) ∧
      (∀ tail, leI32Decode (lenB ++ tail) = .ok ((cb.length : Int), tail)) ∧
      utf8Decode cb = some cs ∧
      (∀ tail, readChainRegion (bytes ++ tail) = .ok (cs, s3 ++ tail)) := by
  unfold readChainRegion at h
  cases hv : varDecodeU32 bytes with
  | error e => simp [hv] at h
  | ok p =>
    obtain ⟨n, s1⟩ := p
    simp only [hv] at h
    cases hl : leI32Decode s1 with
    | error e => simp [hl] at h
    | ok q =>
      obtain ⟨clenI, s2⟩ := q
      simp only [hl] at h
      cases hi : i32toUsize clenI with
      | error e => simp [hi] at h
      | ok clen =>
        simp only [hi] at h
        cases hr : readExact clen s2 with
        | error e => simp [hr] at h
        | ok w =>
          obtain ⟨cb, s3x⟩ := w
          simp only [hr] at h
          cases hu : utf8Decode cb with
          | none => simp [hu] at h
          | some str =>
            simp only [hu, Except.ok.injEq, Prod.mk.injEq] at h
            obtain ⟨rfl, rfl⟩ := h
            obtain ⟨pvar, rfl, hpvar⟩ := varDecodeAux_split bytes 5 n s1 hv
            obtain ⟨b0, b1, b2, b3, rfl, hlenB⟩ := leI32Decode_split s1 clenI s2 hl
            obtain ⟨rfl, hcb, hext⟩ := readExact_split clen s2 cb s3x hr
            have hnn : 0 ≤ clenI := by
              unfold i32toUsize at hi
              by_cases h0 : 0 ≤ clenI
              · exact h0
              · rw [if_neg h0] at hi; cases hi
            have hclen : clen = clenI.toNat := by
              unfold i32toUsize at hi
              rw [if_pos hnn] at hi
              exact (Except.ok.inj hi).symm
            have hval : clenI = (cb.length : Int) := by
              rw [hcb, hclen, Int.toNat_of_nonneg hnn]
            subst hval
            have hpvar2 : ∀ t2, varDecodeU32 (pvar ++ t2) = .ok (n, t2) := hpvar
            refine ⟨pvar, [b0, b1, b2, b3], cb, by simp, rfl, ⟨n, hpvar2⟩,
              hlenB, hu, fun tail => ?_⟩
            have hsh : (pvar ++ (b0 :: b1 :: b2 :: b3 :: (cb ++ s3x))) ++ tail =
                pvar ++ (b0 :: b1 :: b2 :: b3 :: (cb ++ (s3x ++ tail))) := by simp
            rw [hsh]
            simp only [readChainRegion, hpvar2, hlenB, hi, hext, hu]

theorem readRawRegion_split (bytes : List Nat) (rs : JStr) (s2 : List Nat)
    (h : readRawRegion bytes = .ok (rs, s2)) :
    ∃ lenB rb, bytes = lenB ++ rb ++ s2 ∧ lenB.length = 4 ∧
      (∀ tail, leI32Decode (lenB ++ tail) = .ok ((rb.length : Int), tail)) ∧
      utf8Decode rb = some rs ∧
      (∀ tail, readRawRegion (bytes ++ tail) = .ok (rs, s2 ++ tail)) := by
  unfold readRawRegion at h
  cases hl : leI32Decode bytes with
  | error e => simp [hl] at h
  | ok q =>
    obtain ⟨rlenI, s1⟩ := q
    simp only [hl] at h
    cases hi : i32toUsize rlenI with
    | error e => simp [hi] at h
    | ok rlen =>
      simp only [hi] at h
      cases hr : readExact rlen s1 with
      | error e => simp [hr] at h
      | ok w =>
        obtain ⟨rb, s2x⟩ := w
        simp only [hr] at h
        cases hu : utf8Decode rb with
        | none => simp [hu] at h
        | some str =>
          simp only [hu, Except.ok.injEq, Prod.mk.injEq] at h
          obtain ⟨rfl, rfl⟩ := h
          obtain ⟨b0, b1, b2, b3, rfl, hlenB⟩ := leI32Decode_split bytes rlenI s1 hl
          obtain ⟨rfl, hrb, hext⟩ := readExact_split rlen s1 rb s2x hr
          have hnn : 0 ≤ rlenI := by
            unfold i32toUsize at hi
            by_cases h0 : 0 ≤ rlenI
            · exact h0
            · rw [if_neg h0] at hi; cases hi
          have hrlen : rlen = rlenI.toNat := by
            unfold i32toUsize at hi
            rw [if_pos hnn] at hi
            exact (Except.ok.inj hi).symm
          have hval : rlenI = (rb.length : Int) := by
            rw [hrb, hrlen, Int.toNat_of_nonneg hnn]
          subst hval
          refine ⟨[b0, b1, b2, b3], rb, by simp, rfl, hlenB, hu, fun tail => ?_⟩
          have hsh : (b0 :: b1 :: b2 :: b3 :: (rb ++ s2x)) ++ tail =
              b0 :: b1 :: b2 :: b3 :: (rb ++ (s2x ++ tail)) := by simp
          rw [hsh]
          simp only [readRawRegion, hlenB, hi, hext, hu]

end BedrockRs

namespace BedrockRs

theorem proto_deserialize_extend (bytes : List Nat) (r : ConnectionRequest)
    (rest tail : List Nat)
    (h : ConnectionRequest.proto_deserialize bytes = .ok (r, rest)) :
    ConnectionRequest.proto_deserialize (bytes ++ tail) = .ok (r, rest ++ tail) := by
  unfold ConnectionRequest.proto_deserialize at h ⊢
  cases hc : readChainRegion bytes with
  | error e => simp [hc] at h
  | ok p =>
    obtain ⟨cs, s1⟩ := p
    simp only [hc] at h
    obtain ⟨pvar, lenB, cb, hdec, hlen4, hvar, hle, hutf, hcext⟩ :=
      readChainRegion_split bytes cs s1 hc
    rw [hcext tail]
    cases hj : jsonParse cs with
    | error e => simp [hj] at h ⊢
    | ok v =>
      simp only [hj] at h ⊢
      cases he : extractChainJwts v with
      | error e => simp [he] at h ⊢
      | ok jwts =>
        simp only [he] at h ⊢
        cases hw : walkAux [] [] jwts with
        | error e => simp [hw] at h ⊢
        | ok pw =>
          obtain ⟨chain, key⟩ := pw
          simp only [hw] at h ⊢
          cases hraw : readRawRegion s1 with
          | error e => simp [hraw] at h
          | ok q =>
            obtain ⟨rs, s2⟩ := q
            simp only [hraw] at h
            obtain ⟨lenB2, rb, hdec2, hlen42, hle2, hutf2, hrext⟩ :=
              readRawRegion_split s1 rs s2 hraw
            rw [hrext tail]
            cases hd : decode_header rs with
            | error e => simp [hd] at h ⊢
            | ok hd0 =>
              simp only [hd] at h ⊢
              cases hcl : decodeClaimsInsecure rs with
              | error e => simp [hcl] at h ⊢
              | ok raw =>
                simp only [hcl, Except.ok.injEq, Prod.mk.injEq] at h ⊢
                obtain ⟨rfl, rfl⟩ := h
                exact ⟨rfl, rfl⟩

/-- C9: `proto_deserialize` consumes the handshake payload in exactly the
claimed order — a `VAR<u32>` overall length, a 4-byte `LE<i32>` chain-region
length whose value is the chain-region byte count, that many bytes of UTF-8
text parsing as one JSON document, a 4-byte `LE<i32>` raw-token length whose
value is the raw-region byte count, and that many bytes of UTF-8 text whose
content is one decodable JWT; everything after is left unread.  Moreover a
stream that ends before these regions are complete yields an error: every
proper prefix of an input that deserializes successfully consuming all its
bytes produces an error. -/
theorem handshake_wire_order_C9 :
    (∀ (bytes : List Nat) (r : ConnectionRequest) (rest : List Nat),
        ConnectionRequest.proto_deserialize bytes = .ok (r, rest) →
        ∃ (pvar lenB cb lenB2 rb : List Nat),
          bytes = pvar ++ lenB ++ cb ++ (lenB2 ++ rb ++ rest) ∧
          lenB.length = 4 ∧ lenB2.length = 4 ∧
          (∃ n, ∀ tail, varDecodeU32 (pvar ++ tail) = .ok (n, tail)) ∧
          (∀ tail, leI32Decode (lenB ++ tail) = .ok ((cb.length : Int), tail)) ∧
          (∀ tail, leI32Decode (lenB2 ++ tail) = .ok ((rb.length : Int), tail)) ∧
          (∃ cs v, utf8Decode cb = some cs ∧ jsonParse cs = .ok v) ∧
          (∃ rs hd, utf8Decode rb = some rs ∧ decode_header rs = .ok hd)) ∧
    (∀ (bytes : List Nat) (r : ConnectionRequest),
        ConnectionRequest.proto_deserialize bytes = .ok (r, []) →
        ∀ (p t : List Nat), bytes = p ++ t → t ≠ [] →
        ∃ e, ConnectionRequest.proto_deserialize p = .error e) := by
  constructor
  · intro bytes r rest h
    unfold ConnectionRequest.proto_deserialize at h
    cases hc : readChainRegion bytes with
    | error e => simp [hc] at h
    | ok p =>
      obtain ⟨cs, s1⟩ := p
      simp only [hc] at h
      obtain ⟨pvar, lenB, cb, hdec, hlen4, hvar, hle, hutf, _⟩ :=
        readChainRegion_split bytes cs s1 hc
      cases hj : jsonParse cs with
      | error e => simp [hj] at h
      | ok v =>
        simp only [hj] at h
        cases he : extractChainJwts v with
        | error e => simp [he] at h
        | ok jwts =>
          simp only [he] at h
          cases hw : walkAux [] [] jwts with
          | error e => simp [hw] at h
          | ok pw =>
            obtain ⟨chain, key⟩ := pw
            simp only [hw] at h
            cases hraw : readRawRegion s1 with
            | error e => simp [hraw] at h
            | ok q =>
              obtain ⟨rs, s2⟩ := q
              simp only [hraw] at h
              obtain ⟨lenB2, rb, hdec2, hlen42, hle2, hutf2, _⟩ :=
                readRawRegion_split s1 rs s2 hraw
              cases hd : decode_header rs with
              | error e => simp [hd] at h
              | ok hd0 =>
                simp only [hd] at h
                cases hcl : decodeClaimsInsecure rs with
                | error e => simp [hcl] at h
                | ok raw =>
                  simp only [hcl, Except.ok.injEq, Prod.mk.injEq] at h
                  obtain ⟨-, rfl⟩ := h
                  rw [hdec2] at hdec
                  exact ⟨pvar, lenB, cb, lenB2, rb, hdec, hlen4, hlen42,
                    hvar, hle, hle2, ⟨cs, v, hutf, hj⟩, ⟨rs, hd0, hutf2, hd⟩⟩
  · intro bytes r h p t hpt ht
    cases hp : ConnectionRequest.proto_deserialize p with
    | error e => exact ⟨e, rfl⟩
    | ok q =>
      obtain ⟨r2, rest2⟩ := q
      exfalso
      have hext := proto_deserialize_extend p r2 rest2 t hp
      rw [← hpt, h] at hext
      simp only [Except.ok.injEq, Prod.mk.injEq] at hext
      exact ht (List.append_eq_nil.mp hext.2.symm).2

set_option maxRecDepth 1000000 in
/-- Witness for C9 at the concrete 3-token handshake: the successful parse
decomposes into the claimed regions, and dropping the final byte (value 65)
turns the parse into an error. -/
theorem handshake_wire_order_C9_witness :
    (∃ (pvar lenB cb lenB2 rb : List Nat),
        mkHandshake chainBroken3Text tokTN =
          pvar ++ lenB ++ cb ++ (lenB2 ++ rb ++ []) ∧
        lenB.length = 4 ∧ lenB2.length = 4 ∧
        (∃ n, ∀ tail, varDecodeU32 (pvar ++ tail) = .ok (n, tail)) ∧
        (∀ tail, leI32Decode (lenB ++ tail) = .ok ((cb.length : Int), tail)) ∧
        (∀ tail, leI32Decode (lenB2 ++ tail) = .ok ((rb.length : Int), tail)) ∧
        (∃ cs v, utf8Decode cb = some cs ∧ jsonParse cs = .ok v) ∧
        (∃ rs hd, utf8Decode rb = some rs ∧ decode_header rs = .ok hd)) ∧
    (∃ e, ConnectionRequest.proto_deserialize
        ((mkHandshake chainBroken3Text tokTN).dropLast) = .error e) :=
  ⟨handshake_wire_order_C9.1 (mkHandshake chainBroken3Text tokTN)
      ⟨[claimsQQ, claimsQQ, claimsQQ], claimsRaw⟩ [] (by rfl),
   handshake_wire_order_C9.2 (mkHandshake chainBroken3Text tokTN)
      ⟨[claimsQQ, claimsQQ, claimsQQ], claimsRaw⟩ (by rfl)
      ((mkHandshake chainBroken3Text tokTN).dropLast) [65] (by rfl) (by decide)⟩

end BedrockRs
